import Mathlib

/-!
Shallow embedding of the giacrs C wrapper (src/wrapper/gen.cpp, utils.hpp,
context.cpp, options.cpp).

The wrapper is a thin foreign-function bridge over the giac computer-algebra
library.  The wrapper's own logic (the error-marshaling boundary, slot
writing, cloning, the nthprime guard) is embedded directly from the source.
The giac library itself is an external collaborator whose source is not part
of this repository; every delegated library computation is therefore either
kept abstract (a parameter of type Except String _, where Except.error models
a thrown std::runtime_error carrying its message) or, where a claim needs
concrete numeric behaviour, modelled from the spec with a doc comment saying
so.

Evaluation contexts (giac::context) only carry configuration (logging sink,
epsilon) that none of the embedded operations observe, so context arguments
are omitted from the embedding.
-/

/-- The opaque tagged value type giac::gen, restricted to the representations
the claims exercise: exact integers, rationals (produced by division),
the undefined value, and an uninterpreted constructor for every other
representation (symbolic expressions, vectors, ...). -/
inductive GiacGen where
  | gInt (n : Int)
  | gRat (q : Rat)
  | gUndef
  | gOther (s : String)
deriving DecidableEq

/-- Handles are raw addresses of heap-allocated giac::gen objects. -/
abbrev GiacHandle := Nat

/-- A heap of giac::gen objects: a store mapping addresses to values together
with the next fresh address.  Addresses below next are the allocated ones. -/
structure GiacHeap where
  mem : GiacHandle → GiacGen
  next : GiacHandle

/-- Shallow embedding of the SAFE_CALL / SAFE_VOID_CALL macros of
src/wrapper/utils.hpp: run the delegated computation; on normal return write
the produced value over the slot state and return NULL; on a thrown
std::runtime_error leave the slot state alone and return a freshly allocated
copy of the exception message. -/
def SAFE_CALL {α : Type} (comp : Except String α) (slot : α) : Option String × α :=
  match comp with
  | Except.ok v => (none, v)
  | Except.error e => (some e, slot)

/-! ## Models of the delegated giac library computations

The giac sources are not part of this repository; these definitions model the
library calls the wrapper delegates to, following the spec's description of
their semantics.  Operations are only given concrete meaning on exact
integers, the one representation the claims exercise; on every other
representation they are modelled as failing. -/

/-- Modelled from the spec: giac addition on exact integers
(the wrapped library's arithmetic; unsupported shapes raise). -/
def giac_add : GiacGen → GiacGen → Except String GiacGen
  | GiacGen.gInt a, GiacGen.gInt b => Except.ok (GiacGen.gInt (a + b))
  | _, _ => Except.error "unsupported operands"

/-- Modelled from the spec: giac subtraction on exact integers. -/
def giac_sub : GiacGen → GiacGen → Except String GiacGen
  | GiacGen.gInt a, GiacGen.gInt b => Except.ok (GiacGen.gInt (a - b))
  | _, _ => Except.error "unsupported operands"

/-- Modelled from the spec: giac multiplication on exact integers. -/
def giac_mul : GiacGen → GiacGen → Except String GiacGen
  | GiacGen.gInt a, GiacGen.gInt b => Except.ok (GiacGen.gInt (a * b))
  | _, _ => Except.error "unsupported operands"

/-- Modelled from the spec: giac division on exact integers, producing an
exact rational; division by zero raises. -/
def giac_div : GiacGen → GiacGen → Except String GiacGen
  | GiacGen.gInt a, GiacGen.gInt b =>
    if b = 0 then Except.error "Division by 0"
    else Except.ok (GiacGen.gRat ((a : Rat) / (b : Rat)))
  | _, _ => Except.error "unsupported operands"

/-- Modelled from the spec: giac::gcd on exact integers returns the
nonnegative greatest common divisor. -/
def giac_gcd : GiacGen → GiacGen → Except String GiacGen
  | GiacGen.gInt a, GiacGen.gInt b => Except.ok (GiacGen.gInt (Int.gcd a b))
  | _, _ => Except.error "unsupported operands"

/-- Modelled from the spec: giac::lcm on exact integers returns the
nonnegative least common multiple. -/
def giac_lcm : GiacGen → GiacGen → Except String GiacGen
  | GiacGen.gInt a, GiacGen.gInt b => Except.ok (GiacGen.gInt (Int.lcm a b))
  | _, _ => Except.error "unsupported operands"

/-- Modelled from the spec: giac::irem(a, b, q) performs the Euclidean
division of integers, returning the remainder r with 0 <= r < |b| and writing
the matching quotient into its third argument; division by zero and
non-integer operands raise.  The pair is (remainder, quotient). -/
def giac_irem : GiacGen → GiacGen → Except String (GiacGen × GiacGen)
  | GiacGen.gInt a, GiacGen.gInt b =>
    if b = 0 then Except.error "Division by 0"
    else Except.ok (GiacGen.gInt (a % b), GiacGen.gInt (a / b))
  | _, _ => Except.error "unsupported operands"

/-- Modelled from the spec: giac::factorial computes n! eagerly as an exact
arbitrary-precision integer. -/
def giac_factorial (n : Nat) : Int := (Nat.factorial n : Int)

/-- Modelled from the spec: giac::gen::print renders the canonical textual
form; an exact integer prints as its decimal digits (with a leading minus
sign when negative). -/
def giac_print : GiacGen → String
  | GiacGen.gInt n => toString n
  | GiacGen.gRat q =>
    if q.den = 1 then toString q.num
    else toString q.num ++ "/" ++ toString q.den
  | GiacGen.gUndef => "undef"
  | GiacGen.gOther s => s

/-! ## The embedded wrapper entry points

Each giacrs_* definition is the shallow embedding of the extern "C" function
of the same name in src/wrapper/gen.cpp.  Functions suffixed _g are the same
embedding made generic over the delegated library computation, so that the
error-marshaling claims can quantify over every behaviour (normal return or
thrown std::runtime_error) the delegated computation can exhibit; the
unsuffixed function instantiates the generic one at the library model. -/

/-- giacrs_gen_to_str: return a fresh copy of e->print() (no error channel,
no catch; in the spec's model printing does not raise). -/
def giacrs_gen_to_str (e : GiacGen) : String := giac_print e

/-- giacrs_gen_factorial: new gen(giac::factorial(i)). -/
def giacrs_gen_factorial (n : Nat) : GiacGen := GiacGen.gInt (giac_factorial n)

/-- giacrs_gen_gcd, generic over the delegated giac::gcd. -/
def giacrs_gen_gcd_g (lib : GiacGen → GiacGen → Except String GiacGen)
    (a b res : GiacGen) : Option String × GiacGen :=
  SAFE_CALL (lib a b) res

/-- giacrs_gen_gcd: SAFE_CALL(giac::gcd(*a, *b, ctx)). -/
def giacrs_gen_gcd (a b res : GiacGen) : Option String × GiacGen :=
  giacrs_gen_gcd_g giac_gcd a b res

/-- giacrs_gen_lcm, generic over the delegated giac::lcm. -/
def giacrs_gen_lcm_g (lib : GiacGen → GiacGen → Except String GiacGen)
    (a b res : GiacGen) : Option String × GiacGen :=
  SAFE_CALL (lib a b) res

/-- giacrs_gen_lcm: SAFE_CALL(giac::lcm(*a, *b)). -/
def giacrs_gen_lcm (a b res : GiacGen) : Option String × GiacGen :=
  giacrs_gen_lcm_g giac_lcm a b res

/-- giacrs_gen_iquorem, generic over the delegated giac::irem: the library
call returns the remainder (assigned to *res by SAFE_CALL) and writes the
quotient into *q as a side effect; on a thrown exception both slots keep
their previous contents.  Output is (error-or-null, q slot, res slot). -/
def giacrs_gen_iquorem_g
    (lib : GiacGen → GiacGen → Except String (GiacGen × GiacGen))
    (a b q res : GiacGen) : Option String × GiacGen × GiacGen :=
  match lib a b with
  | Except.ok (r, qv) => (none, qv, r)
  | Except.error e => (some e, q, res)

/-- giacrs_gen_iquorem: SAFE_CALL(giac::irem(*a, *b, *q)). -/
def giacrs_gen_iquorem (a b q res : GiacGen) : Option String × GiacGen × GiacGen :=
  giacrs_gen_iquorem_g giac_irem a b q res

/-- giacrs_gen_irem, generic: declares a local default gen q (which giac
default-initializes to the exact integer 0), delegates to giacrs_gen_iquorem,
and returns its error result together with the res slot, discarding q. -/
def giacrs_gen_irem_g
    (lib : GiacGen → GiacGen → Except String (GiacGen × GiacGen))
    (a b res : GiacGen) : Option String × GiacGen :=
  let q : GiacGen := GiacGen.gInt 0
  let out := giacrs_gen_iquorem_g lib a b q res
  (out.1, out.2.2)

/-- giacrs_gen_irem: wrapper over giacrs_gen_iquorem with a discarded local
quotient slot. -/
def giacrs_gen_irem (a b res : GiacGen) : Option String × GiacGen :=
  giacrs_gen_irem_g giac_irem a b res

/-- The common shape of giacrs_gen_add / sub / mul / div in gen.cpp:
SAFE_CALL(*res OP *f).  Both operands are read through their handles, OP is
delegated to the library, and on normal return the produced value is stored
over the object the first handle references (aliasing input and output); on a
thrown exception the heap is left unchanged. -/
def giacrs_gen_binop_h (lib : GiacGen → GiacGen → Except String GiacGen)
    (h : GiacHeap) (res f : GiacHandle) : Option String × GiacHeap :=
  match lib (h.mem res) (h.mem f) with
  | Except.ok v =>
    (none, GiacHeap.mk (fun n => if n = res then v else h.mem n) h.next)
  | Except.error e => (some e, h)

/-- giacrs_gen_add: SAFE_CALL(*res + *f). -/
def giacrs_gen_add_h (h : GiacHeap) (res f : GiacHandle) : Option String × GiacHeap :=
  giacrs_gen_binop_h giac_add h res f

/-- giacrs_gen_sub: SAFE_CALL(*res - *f). -/
def giacrs_gen_sub_h (h : GiacHeap) (res f : GiacHandle) : Option String × GiacHeap :=
  giacrs_gen_binop_h giac_sub h res f

/-- giacrs_gen_mul: SAFE_CALL(*res * *f). -/
def giacrs_gen_mul_h (h : GiacHeap) (res f : GiacHandle) : Option String × GiacHeap :=
  giacrs_gen_binop_h giac_mul h res f

/-- giacrs_gen_div: SAFE_CALL(*res / *f). -/
def giacrs_gen_div_h (h : GiacHeap) (res f : GiacHandle) : Option String × GiacHeap :=
  giacrs_gen_binop_h giac_div h res f

/-- giacrs_gen_clone: new gen(*e) — allocate a fresh object holding a deep
copy of the referenced value; returns the fresh handle and the extended
heap. -/
def giacrs_gen_clone (h : GiacHeap) (e : GiacHandle) : GiacHandle × GiacHeap :=
  (h.next,
    GiacHeap.mk (fun n => if n = h.next then h.mem e else h.mem n) (h.next + 1))

/-- The observable outcome of constructing giac::gen(s, ctx): the constructed
value together with the values of giac::first_error_line(ctx) and
giac::parser_error(ctx) afterwards.  Modelled from the spec: the parser
belongs to the wrapped library; a nonzero first error line signals a syntax
error and the diagnostic text describes it. -/
structure GiacParseOutcome where
  parsed : GiacGen
  firstErrorLine : Nat
  diagnostic : String

/-- giacrs_gen_from_str, generic over the delegated parser and evaluator:
construct gen(s, ctx) into *res; if first_error_line(ctx) is nonzero, return
a copy of parser_error(ctx) without evaluating; otherwise
SAFE_CALL(giac::eval(*res, ctx)). -/
def giacrs_gen_from_str_g (p : String → GiacParseOutcome)
    (ev : GiacGen → Except String GiacGen) (s : String) (res : GiacGen) :
    Option String × GiacGen :=
  let out := (p s).parsed
  if (p s).firstErrorLine ≠ 0 then (some (p s).diagnostic, out)
  else SAFE_CALL (ev out) out

/-- giac::is_undef. -/
def giac_is_undef (g : GiacGen) : Bool := g = GiacGen.gUndef

/-- The bespoke diagnostic giacrs_gen_nthprime produces when the library
lookup returns the undefined value (the oversized-argument guard). -/
def nthprimeOversizeMsg : String :=
  "Failed to compute nthprime, argument is too big"

/-- giacrs_gen_nthprime, generic over the delegated giac::_ithprime: assign
the lookup result to *res; if it is undef, throw the bespoke runtime_error,
caught by the surrounding handler exactly like a library exception. -/
def giacrs_gen_nthprime_g (lib : GiacGen → Except String GiacGen)
    (a res : GiacGen) : Option String × GiacGen :=
  match lib a with
  | Except.ok v =>
    if giac_is_undef v then (some nthprimeOversizeMsg, v) else (none, v)
  | Except.error e => (some e, res)

/-- Conversion of a C int to int8_t: two's-complement wraparound, as performed
by the implicit conversion when SAFE_CALL assigns the library's int-valued
result to the int8_t output slot. -/
def toInt8 (v : Int) : Int := (v + 128) % 256 - 128

/-- giacrs_gen_is_pseudoprime, generic over the delegated
giac::is_probab_prime_p; the int8_t output slot receives the converted
result. -/
def giacrs_gen_is_pseudoprime_g (lib : GiacGen → Except String Int)
    (a : GiacGen) (res : Int) : Option String × Int :=
  match lib a with
  | Except.ok v => (none, toInt8 v)
  | Except.error e => (some e, res)

/-- giacrs_gen_legendre, generic over the delegated giac::legendre. -/
def giacrs_gen_legendre_g (lib : GiacGen → GiacGen → Except String Int)
    (a b : GiacGen) (res : Int) : Option String × Int :=
  match lib a b with
  | Except.ok v => (none, toInt8 v)
  | Except.error e => (some e, res)

/-- giacrs_gen_jacobi, generic over the delegated giac::jacobi. -/
def giacrs_gen_jacobi_g (lib : GiacGen → GiacGen → Except String Int)
    (a b : GiacGen) (res : Int) : Option String × Int :=
  match lib a b with
  | Except.ok v => (none, toInt8 v)
  | Except.error e => (some e, res)

/-- giacrs_gen_is_zero, generic: SAFE_CALL(giac::is_zero(*e, ctx)). -/
def giacrs_gen_is_zero_g (lib : GiacGen → Except String Bool)
    (e : GiacGen) (res : Bool) : Option String × Bool :=
  SAFE_CALL (lib e) res

/-- giacrs_gen_to_int, generic: SAFE_CALL(e->to_int()). -/
def giacrs_gen_to_int_g (lib : GiacGen → Except String Int)
    (e : GiacGen) (res : Int) : Option String × Int :=
  SAFE_CALL (lib e) res

/-- giacrs_gen_iquo, generic: SAFE_CALL(giac::iquo(*a, *b)). -/
def giacrs_gen_iquo_g (lib : GiacGen → GiacGen → Except String GiacGen)
    (a b res : GiacGen) : Option String × GiacGen :=
  SAFE_CALL (lib a b) res

/-- giacrs_gen_nextprime, generic: SAFE_CALL(giac::nextprime(*a)). -/
def giacrs_gen_nextprime_g (lib : GiacGen → Except String GiacGen)
    (a res : GiacGen) : Option String × GiacGen :=
  SAFE_CALL (lib a) res

/-- giacrs_gen_prevprime, generic: SAFE_CALL(giac::prevprime(*a)). -/
def giacrs_gen_prevprime_g (lib : GiacGen → Except String GiacGen)
    (a res : GiacGen) : Option String × GiacGen :=
  SAFE_CALL (lib a) res

/-- giacrs_gen_iegcd, generic: SAFE_VOID_CALL(giac::egcd(*a, *b, *u, *v, *d))
— a representative of the multi-slot SAFE_VOID_CALL entry points. -/
def giacrs_gen_iegcd_g
    (lib : GiacGen → GiacGen → Except String (GiacGen × GiacGen × GiacGen))
    (a b u v d : GiacGen) : Option String × (GiacGen × GiacGen × GiacGen) :=
  SAFE_CALL (lib a b) (u, v, d)

/-- The delegated computation's outcome is marshalled onto the ErrorOrNull
channel: a thrown exception is caught and its message returned as the owned
error string, and a normal return yields the null success marker.  The
wrapper output is a total value, so no exception propagates to the caller. -/
def marshals {α σ : Type} (delegated : Except String α)
    (out : Option String × σ) : Prop :=
  (∀ e, delegated = Except.error e → out.1 = some e) ∧
  (∀ v, delegated = Except.ok v → out.1 = none)

/-- Concrete heap for the aliasing counterexample: a single allocated object,
at handle 0, holding the exact integer 1. -/
def aliasHeap : GiacHeap := GiacHeap.mk (fun _ => GiacGen.gInt 1) 1

/-- Concrete two-object heap: handle 0 holds 5, handle 1 holds 2. -/
def twoHeap : GiacHeap :=
  GiacHeap.mk (fun n => if n = 0 then GiacGen.gInt 5 else GiacGen.gInt 2) 2

/-- A parser stub that accepts its input (no error line) and produces an
unevaluated symbolic expression. -/
def parseOkStub : String → GiacParseOutcome :=
  fun s => GiacParseOutcome.mk (GiacGen.gOther s) 0 ""

/-- A parser stub that rejects its input at line 1 with a fixed diagnostic. -/
def parseErrStub : String → GiacParseOutcome :=
  fun _ => GiacParseOutcome.mk GiacGen.gUndef 1 "syntax error line 1"

/-- An evaluator stub whose evaluation always raises. -/
def evalRaisesStub : GiacGen → Except String GiacGen :=
  fun _ => Except.error "eval threw"

/-- An evaluator stub that always returns the exact integer 4. -/
def evalOkStub : GiacGen → Except String GiacGen :=
  fun _ => Except.ok (GiacGen.gInt 4)

/-! ## Theorems -/

/-- Helper: an in-place operator never touches an object other than the one
its first handle references. -/
theorem binop_h_frame (lib : GiacGen → GiacGen → Except String GiacGen)
    (h : GiacHeap) (a b n : GiacHandle) (hn : n ≠ a) :
    (giacrs_gen_binop_h lib h a b).2.mem n = h.mem n := by
  unfold giacrs_gen_binop_h
  cases lib (h.mem a) (h.mem b) with
  | ok v => simp [hn]
  | error e => rfl

/-- Helper: on normal return of the delegated operation, the in-place
operator stores the produced value over its first handle's object. -/
theorem binop_h_writes (lib : GiacGen → GiacGen → Except String GiacGen)
    (h : GiacHeap) (a b : GiacHandle) (v : GiacGen)
    (hok : lib (h.mem a) (h.mem b) = Except.ok v) :
    (giacrs_gen_binop_h lib h a b).2.mem a = v := by
  unfold giacrs_gen_binop_h
  rw [hok]
  simp

/-- Helper: cloning stores a copy of the cloned value at the fresh handle. -/
theorem clone_fresh_val (h : GiacHeap) (x : GiacHandle) :
    (giacrs_gen_clone h x).2.mem h.next = h.mem x := by
  simp [giacrs_gen_clone]

/-- Helper: cloning leaves every previously allocated object unchanged. -/
theorem clone_old_val (h : GiacHeap) (x n : GiacHandle) (hn : n ≠ h.next) :
    (giacrs_gen_clone h x).2.mem n = h.mem n := by
  simp [giacrs_gen_clone, hn]

/-- Helper: the remainder of Euclidean division is below the absolute value
of a nonzero divisor. -/
theorem emod_lt_abs (a : Int) {b : Int} (hb : b ≠ 0) : a % b < |b| := by
  rcases lt_or_gt_of_ne hb with h | h
  · have h2 : a % (-b) < -b := Int.emod_lt_of_pos a (by omega)
    rw [Int.emod_neg] at h2
    rw [abs_of_neg h]
    exact h2
  · rw [abs_of_pos h]
    exact Int.emod_lt_of_pos a h

/-- Claim C6: for every pair of integers a and b with b nonzero,
iquorem(a, b) succeeds and populates its two output slots with a quotient q
and a remainder r such that a = b * q + r and 0 <= r < |b|. -/
theorem C6_iquorem_euclidean (a b : Int) (q0 r0 : GiacGen) (hb : b ≠ 0) :
    ∃ q r : Int,
      giacrs_gen_iquorem (GiacGen.gInt a) (GiacGen.gInt b) q0 r0
        = (none, GiacGen.gInt q, GiacGen.gInt r) ∧
      a = b * q + r ∧ 0 ≤ r ∧ r < |b| := by
  refine ⟨a / b, a % b, ?_, ?_, ?_, ?_⟩
  · simp [giacrs_gen_iquorem, giacrs_gen_iquorem_g, giac_irem, hb]
  · have := Int.ediv_add_emod a b
    omega
  · exact Int.emod_nonneg a hb
  · exact emod_lt_abs a hb

theorem C6_iquorem_euclidean_witness :
    ∃ q r : Int,
      giacrs_gen_iquorem (GiacGen.gInt (-7)) (GiacGen.gInt 3) GiacGen.gUndef GiacGen.gUndef
        = (none, GiacGen.gInt q, GiacGen.gInt r) ∧
      (-7 : Int) = 3 * q + r ∧ 0 ≤ r ∧ r < |(3 : Int)| :=
  C6_iquorem_euclidean (-7) 3 GiacGen.gUndef GiacGen.gUndef (by decide)

/-- Claim C7: for every pair of nonzero integers a and b, the values produced
by gcd(a, b) and lcm(a, b) satisfy gcd(a,b) * lcm(a,b) = |a * b|. -/
theorem C7_gcd_lcm_identity (a b : Int) (s1 s2 : GiacGen) (ha : a ≠ 0) (hb : b ≠ 0) :
    ∃ g l : Int,
      giacrs_gen_gcd (GiacGen.gInt a) (GiacGen.gInt b) s1 = (none, GiacGen.gInt g) ∧
      giacrs_gen_lcm (GiacGen.gInt a) (GiacGen.gInt b) s2 = (none, GiacGen.gInt l) ∧
      g * l = |a * b| := by
  refine ⟨Int.gcd a b, Int.lcm a b, ?_, ?_, ?_⟩
  · simp [giacrs_gen_gcd, giacrs_gen_gcd_g, giac_gcd, SAFE_CALL]
  · simp [giacrs_gen_lcm, giacrs_gen_lcm_g, giac_lcm, SAFE_CALL]
  · have h := Int.gcd_mul_lcm a b
    rw [Int.abs_eq_natAbs]
    exact_mod_cast congrArg (fun n : Nat => (n : Int)) h

/-- Claim C3 counterexample: passing the same handle as both arguments of add
(the pair (0, 0) on a heap whose object 0 holds the integer 1) changes the
value referenced by the second argument handle, so the claim as stated — the
second argument handle's value is unchanged for every pair of handles — is
false. -/
theorem C3_counterexample :
    ¬ ((giacrs_gen_add_h aliasHeap 0 0).2.mem 0 = aliasHeap.mem 0) := by
  decide

/-- Helper: the full in-place contract of one heap operator: the frame
property for a second handle distinct from the first, the result written
through the first handle, and, under aliasing, the single shared object
holding the result. -/
theorem binop_h_contract (lib : GiacGen → GiacGen → Except String GiacGen)
    (h : GiacHeap) (a b : GiacHandle) :
    (b ≠ a → (giacrs_gen_binop_h lib h a b).2.mem b = h.mem b) ∧
    (∀ v, lib (h.mem a) (h.mem b) = Except.ok v →
      (giacrs_gen_binop_h lib h a b).2.mem a = v) ∧
    (a = b → ∀ v, lib (h.mem a) (h.mem b) = Except.ok v →
      (giacrs_gen_binop_h lib h a b).2.mem b = v) := by
  refine ⟨fun hab => binop_h_frame lib h a b b hab,
    fun v hv => binop_h_writes lib h a b v hv, ?_⟩
  intro hab v hv
  subst hab
  exact binop_h_writes lib h a a v hv

/-- Claim C3, amended: for every pair of value handles (a, b), each
arithmetic operator add, sub, mul, div writes the value the delegated
operation produces over its first argument handle's object (aliasing input
and output); when b does not alias a, the value referenced by the second
argument handle is left unchanged, and when the same handle is passed as
both arguments, the single shared object holds the operation's result
afterwards. -/
theorem C3_inplace_and_frame (h : GiacHeap) (a b : GiacHandle) :
    ((b ≠ a → (giacrs_gen_add_h h a b).2.mem b = h.mem b) ∧
      (∀ v, giac_add (h.mem a) (h.mem b) = Except.ok v →
        (giacrs_gen_add_h h a b).2.mem a = v) ∧
      (a = b → ∀ v, giac_add (h.mem a) (h.mem b) = Except.ok v →
        (giacrs_gen_add_h h a b).2.mem b = v)) ∧
    ((b ≠ a → (giacrs_gen_sub_h h a b).2.mem b = h.mem b) ∧
      (∀ v, giac_sub (h.mem a) (h.mem b) = Except.ok v →
        (giacrs_gen_sub_h h a b).2.mem a = v) ∧
      (a = b → ∀ v, giac_sub (h.mem a) (h.mem b) = Except.ok v →
        (giacrs_gen_sub_h h a b).2.mem b = v)) ∧
    ((b ≠ a → (giacrs_gen_mul_h h a b).2.mem b = h.mem b) ∧
      (∀ v, giac_mul (h.mem a) (h.mem b) = Except.ok v →
        (giacrs_gen_mul_h h a b).2.mem a = v) ∧
      (a = b → ∀ v, giac_mul (h.mem a) (h.mem b) = Except.ok v →
        (giacrs_gen_mul_h h a b).2.mem b = v)) ∧
    ((b ≠ a → (giacrs_gen_div_h h a b).2.mem b = h.mem b) ∧
      (∀ v, giac_div (h.mem a) (h.mem b) = Except.ok v →
        (giacrs_gen_div_h h a b).2.mem a = v) ∧
      (a = b → ∀ v, giac_div (h.mem a) (h.mem b) = Except.ok v →
        (giacrs_gen_div_h h a b).2.mem b = v)) :=
  ⟨binop_h_contract giac_add h a b, binop_h_contract giac_sub h a b,
   binop_h_contract giac_mul h a b, binop_h_contract giac_div h a b⟩

theorem C3_inplace_and_frame_witness :
    (giacrs_gen_add_h twoHeap 0 1).2.mem 1 = twoHeap.mem 1 ∧
    (giacrs_gen_add_h twoHeap 0 1).2.mem 0 = GiacGen.gInt 7 ∧
    (giacrs_gen_add_h aliasHeap 0 0).2.mem 0 = GiacGen.gInt 2 :=
  ⟨(C3_inplace_and_frame twoHeap 0 1).1.1 (by decide),
   (C3_inplace_and_frame twoHeap 0 1).1.2.1 (GiacGen.gInt 7) rfl,
   (C3_inplace_and_frame aliasHeap 0 0).1.2.2 rfl (GiacGen.gInt 2) rfl⟩

/-- Claim C4: cloning x and then mutating the clone through any arithmetic
operator (with an arbitrary second operand handle y) never changes the string
rendering of the value x references; the clone is a deep copy living at a
fresh handle distinct from x and initially holding the same value. -/
theorem C4_clone_then_mutate (h : GiacHeap) (x y : GiacHandle) (hx : x < h.next) :
    (giacrs_gen_clone h x).1 ≠ x ∧
    (giacrs_gen_clone h x).2.mem (giacrs_gen_clone h x).1 = h.mem x ∧
    giacrs_gen_to_str
        ((giacrs_gen_add_h (giacrs_gen_clone h x).2 (giacrs_gen_clone h x).1 y).2.mem x)
      = giacrs_gen_to_str (h.mem x) ∧
    giacrs_gen_to_str
        ((giacrs_gen_sub_h (giacrs_gen_clone h x).2 (giacrs_gen_clone h x).1 y).2.mem x)
      = giacrs_gen_to_str (h.mem x) ∧
    giacrs_gen_to_str
        ((giacrs_gen_mul_h (giacrs_gen_clone h x).2 (giacrs_gen_clone h x).1 y).2.mem x)
      = giacrs_gen_to_str (h.mem x) ∧
    giacrs_gen_to_str
        ((giacrs_gen_div_h (giacrs_gen_clone h x).2 (giacrs_gen_clone h x).1 y).2.mem x)
      = giacrs_gen_to_str (h.mem x) := by
  have hcx : x ≠ (giacrs_gen_clone h x).1 := Nat.ne_of_lt hx
  have hold : (giacrs_gen_clone h x).2.mem x = h.mem x :=
    clone_old_val h x x (Nat.ne_of_lt hx)
  refine ⟨Ne.symm hcx, clone_fresh_val h x, ?_, ?_, ?_, ?_⟩ <;>
  · simp only [giacrs_gen_add_h, giacrs_gen_sub_h, giacrs_gen_mul_h, giacrs_gen_div_h]
    rw [binop_h_frame _ _ _ _ _ hcx, hold]

theorem C4_clone_then_mutate_witness :
    (giacrs_gen_clone aliasHeap 0).1 ≠ 0 ∧
    giacrs_gen_to_str
        ((giacrs_gen_add_h (giacrs_gen_clone aliasHeap 0).2 (giacrs_gen_clone aliasHeap 0).1 0).2.mem 0)
      = giacrs_gen_to_str (aliasHeap.mem 0) :=
  ⟨(C4_clone_then_mutate aliasHeap 0 0 (by decide)).1,
   (C4_clone_then_mutate aliasHeap 0 0 (by decide)).2.2.1⟩

theorem C7_gcd_lcm_identity_witness :
    ∃ g l : Int,
      giacrs_gen_gcd (GiacGen.gInt (-4)) (GiacGen.gInt 6) GiacGen.gUndef = (none, GiacGen.gInt g) ∧
      giacrs_gen_lcm (GiacGen.gInt (-4)) (GiacGen.gInt 6) GiacGen.gUndef = (none, GiacGen.gInt l) ∧
      g * l = |(-4 : Int) * 6| :=
  C7_gcd_lcm_identity (-4) 6 GiacGen.gUndef GiacGen.gUndef (by decide) (by decide)

/-- Helper: the int-to-int8_t conversion is the identity on values that fit. -/
theorem toInt8_eq_self (v : Int) (hlo : -128 ≤ v) (hhi : v ≤ 127) :
    toInt8 v = v := by
  unfold toInt8
  have h : (v + 128) % 256 = v + 128 :=
    Int.emod_eq_of_lt (by omega) (by omega)
  omega

/-- Claim C2 counterexample: the claim as stated says every syntactically
valid input is evaluated, its result written to the output slot and null
returned; but when the evaluation of a successfully parsed expression throws
(a behaviour the code's SAFE_CALL explicitly handles), from_str returns a
non-null error string instead. -/
theorem C2_counterexample :
    ¬ ((giacrs_gen_from_str_g parseOkStub evalRaisesStub "1/0" GiacGen.gUndef).1
        = none) := by
  decide

/-- Claim C2, amended: for every syntactically invalid input text (nonzero
first error line), from_str returns the non-null parser diagnostic, leaves
the output slot holding the unevaluated parse, and never invokes the
evaluator (the outcome is the same for every evaluator); for every valid
input it evaluates the parsed expression, and either writes the evaluated
result into the output slot and returns null, or, when evaluation raises,
returns the exception message and leaves the slot holding the unevaluated
parse. -/
theorem C2_from_str_parse_guard (p : String → GiacParseOutcome)
    (ev ev2 : GiacGen → Except String GiacGen) (s : String) (res : GiacGen) :
    ((p s).firstErrorLine ≠ 0 →
      (giacrs_gen_from_str_g p ev s res).1 = some (p s).diagnostic ∧
      (giacrs_gen_from_str_g p ev s res).2 = (p s).parsed ∧
      giacrs_gen_from_str_g p ev s res = giacrs_gen_from_str_g p ev2 s res) ∧
    ((p s).firstErrorLine = 0 →
      (∀ v, ev (p s).parsed = Except.ok v →
        giacrs_gen_from_str_g p ev s res = (none, v)) ∧
      (∀ e, ev (p s).parsed = Except.error e →
        giacrs_gen_from_str_g p ev s res = (some e, (p s).parsed))) := by
  constructor
  · intro hbad
    refine ⟨?_, ?_, ?_⟩ <;> simp [giacrs_gen_from_str_g, hbad]
  · intro hok
    constructor
    · intro v hv
      simp [giacrs_gen_from_str_g, hok, hv, SAFE_CALL]
    · intro e he
      simp [giacrs_gen_from_str_g, hok, he, SAFE_CALL]

theorem C2_from_str_parse_guard_witness :
    ((giacrs_gen_from_str_g parseErrStub evalOkStub ")" GiacGen.gUndef).1
        = some "syntax error line 1" ∧
      giacrs_gen_from_str_g parseErrStub evalOkStub ")" GiacGen.gUndef
        = giacrs_gen_from_str_g parseErrStub evalRaisesStub ")" GiacGen.gUndef) ∧
    giacrs_gen_from_str_g parseOkStub evalOkStub "2+2" GiacGen.gUndef
      = (none, GiacGen.gInt 4) :=
  ⟨⟨((C2_from_str_parse_guard parseErrStub evalOkStub evalRaisesStub ")"
        GiacGen.gUndef).1 (by decide)).1,
    ((C2_from_str_parse_guard parseErrStub evalOkStub evalRaisesStub ")"
        GiacGen.gUndef).1 (by decide)).2.2⟩,
   ((C2_from_str_parse_guard parseOkStub evalOkStub evalOkStub "2+2"
        GiacGen.gUndef).2 (by decide)).1 (GiacGen.gInt 4) rfl⟩

/-- Claim C5: when the delegated nth-prime lookup yields the undefined value,
nthprime returns the wrapper's own fixed oversized-argument message through
the same error-string channel; when the lookup raises, the library's own
exception message is returned instead; and on a defined result the value is
written into the output slot with a null return. -/
theorem C5_nthprime_guard (lib : GiacGen → Except String GiacGen)
    (a res : GiacGen) :
    (lib a = Except.ok GiacGen.gUndef →
      (giacrs_gen_nthprime_g lib a res).1 = some nthprimeOversizeMsg) ∧
    (∀ v, lib a = Except.ok v → giac_is_undef v = false →
      giacrs_gen_nthprime_g lib a res = (none, v)) ∧
    (∀ e, lib a = Except.error e →
      giacrs_gen_nthprime_g lib a res = (some e, res)) := by
  refine ⟨?_, ?_, ?_⟩
  · intro hu
    simp [giacrs_gen_nthprime_g, hu, giac_is_undef]
  · intro v hv hnu
    simp [giacrs_gen_nthprime_g, hv, hnu]
  · intro e he
    simp [giacrs_gen_nthprime_g, he]

theorem C5_nthprime_guard_witness :
    (giacrs_gen_nthprime_g (fun _ => Except.ok GiacGen.gUndef) (GiacGen.gInt 9)
        GiacGen.gUndef).1 = some nthprimeOversizeMsg ∧
    giacrs_gen_nthprime_g (fun _ => Except.ok (GiacGen.gInt 23)) (GiacGen.gInt 9)
        GiacGen.gUndef = (none, GiacGen.gInt 23) ∧
    giacrs_gen_nthprime_g (fun _ => Except.error "native")
        (GiacGen.gInt 9) GiacGen.gUndef = (some "native", GiacGen.gUndef) :=
  ⟨(C5_nthprime_guard (fun _ => Except.ok GiacGen.gUndef) (GiacGen.gInt 9)
      GiacGen.gUndef).1 rfl,
   (C5_nthprime_guard (fun _ => Except.ok (GiacGen.gInt 23)) (GiacGen.gInt 9)
      GiacGen.gUndef).2.1 (GiacGen.gInt 23) rfl (by decide),
   (C5_nthprime_guard (fun _ => Except.error "native") (GiacGen.gInt 9)
      GiacGen.gUndef).2.2 "native" rfl⟩

/-- Claim C8: for every integer n >= 0, from_factorial(n) holds exactly the
arbitrary-precision integer n!, and to_string on the resulting value yields
exactly the decimal digits of n!. -/
theorem C8_factorial_to_str (n : Nat) :
    giacrs_gen_factorial n = GiacGen.gInt (Nat.factorial n) ∧
    giacrs_gen_to_str (giacrs_gen_factorial n) = Nat.repr (Nat.factorial n) :=
  ⟨rfl, rfl⟩

/-- Claim C9: whenever the delegated library predicate returns normally with
a signed code that fits in the int8_t output slot (as the sign-coded results
of is_probab_prime_p, legendre and jacobi do), the wrapper writes exactly
that code into the slot and returns null — the three-valued/sign-coded
result is preserved, not collapsed to a boolean. -/
theorem C9_sign_code_preserved (lib1 : GiacGen → Except String Int)
    (lib2 lib3 : GiacGen → GiacGen → Except String Int)
    (a b : GiacGen) (r0 : Int) :
    (∀ v, lib1 a = Except.ok v → -128 ≤ v → v ≤ 127 →
      giacrs_gen_is_pseudoprime_g lib1 a r0 = (none, v)) ∧
    (∀ v, lib2 a b = Except.ok v → -128 ≤ v → v ≤ 127 →
      giacrs_gen_legendre_g lib2 a b r0 = (none, v)) ∧
    (∀ v, lib3 a b = Except.ok v → -128 ≤ v → v ≤ 127 →
      giacrs_gen_jacobi_g lib3 a b r0 = (none, v)) := by
  refine ⟨?_, ?_, ?_⟩
  · intro v hv hlo hhi
    simp [giacrs_gen_is_pseudoprime_g, hv, toInt8_eq_self v hlo hhi]
  · intro v hv hlo hhi
    simp [giacrs_gen_legendre_g, hv, toInt8_eq_self v hlo hhi]
  · intro v hv hlo hhi
    simp [giacrs_gen_jacobi_g, hv, toInt8_eq_self v hlo hhi]

theorem C9_sign_code_preserved_witness :
    giacrs_gen_is_pseudoprime_g (fun _ => Except.ok 2) (GiacGen.gInt 7) 0
      = (none, 2) ∧
    giacrs_gen_legendre_g (fun _ _ => Except.ok (-1)) (GiacGen.gInt 5)
      (GiacGen.gInt 3) 0 = (none, -1) ∧
    giacrs_gen_jacobi_g (fun _ _ => Except.ok 0) (GiacGen.gInt 3)
      (GiacGen.gInt 9) 0 = (none, 0) :=
  ⟨(C9_sign_code_preserved (fun _ => Except.ok 2) (fun _ _ => Except.ok (-1))
      (fun _ _ => Except.ok 0) (GiacGen.gInt 7) (GiacGen.gInt 3) 0).1 2 rfl
      (by decide) (by decide),
   (C9_sign_code_preserved (fun _ => Except.ok 2) (fun _ _ => Except.ok (-1))
      (fun _ _ => Except.ok 0) (GiacGen.gInt 5) (GiacGen.gInt 3) 0).2.1 (-1) rfl
      (by decide) (by decide),
   (C9_sign_code_preserved (fun _ => Except.ok 2) (fun _ _ => Except.ok (-1))
      (fun _ _ => Except.ok 0) (GiacGen.gInt 3) (GiacGen.gInt 9) 0).2.2 0 rfl
      (by decide) (by decide)⟩

/-- Claim C10: for every pair of inputs and every behaviour of the delegated
giac::irem, irem(a, b) returns the same error-or-null result as
iquorem(a, b) (for any prior contents of the quotient slot) and writes into
its output slot exactly the remainder component iquorem would produce; the
quotient is computed into a discarded local. -/
theorem C10_irem_refines_iquorem
    (lib : GiacGen → GiacGen → Except String (GiacGen × GiacGen))
    (a b res q0 : GiacGen) :
    (giacrs_gen_irem_g lib a b res).1 = (giacrs_gen_iquorem_g lib a b q0 res).1 ∧
    (giacrs_gen_irem_g lib a b res).2
      = (giacrs_gen_iquorem_g lib a b q0 res).2.2 := by
  unfold giacrs_gen_irem_g giacrs_gen_iquorem_g
  cases hl : lib a b with
  | ok pr => cases pr; simp
  | error e => simp

/-- Helper: every SAFE_CALL-shaped entry point marshals its delegated
computation's outcome onto the ErrorOrNull channel. -/
theorem marshals_SAFE_CALL {α : Type} (c : Except String α) (slot : α) :
    marshals c (SAFE_CALL c slot) := by
  constructor
  · intro e he
    rw [he]
    rfl
  · intro v hv
    rw [hv]
    rfl

/-- Claim C1: every embedded public entry point that delegates a computation
to the wrapped library and returns through the ErrorOrNull channel catches
every exception the delegated computation can raise (modelled as the
Except.error outcome carrying the runtime_error message) and converts it to
the error-string return; for every behaviour of every delegated computation
the wrapper returns a value — null on normal return, the exception's message
on a throw — so no exception propagates past the function-call boundary.
For from_str the evaluator is only reached on a clean parse, and a parse
error is likewise surfaced as an error string; for nthprime the wrapper's
own thrown guard is caught by the same handler. -/
theorem C1_no_exception_escapes
    (f1 : GiacGen → Except String GiacGen)
    (f2 : GiacGen → GiacGen → Except String GiacGen)
    (fqr : GiacGen → GiacGen → Except String (GiacGen × GiacGen))
    (fi : GiacGen → Except String Int)
    (fi2 : GiacGen → GiacGen → Except String Int)
    (fb : GiacGen → Except String Bool)
    (f3 : GiacGen → GiacGen → Except String (GiacGen × GiacGen × GiacGen))
    (p : String → GiacParseOutcome) (ev : GiacGen → Except String GiacGen)
    (a b q res u v d : GiacGen) (i0 : Int) (b0 : Bool) (s : String)
    (hp : GiacHeap) (ia ib : GiacHandle) :
    marshals (f2 a b) (giacrs_gen_gcd_g f2 a b res) ∧
    ((p s).firstErrorLine = 0 →
      marshals (ev (p s).parsed) (giacrs_gen_from_str_g p ev s res)) ∧
    marshals (f2 (hp.mem ia) (hp.mem ib)) (giacrs_gen_binop_h f2 hp ia ib) ∧
    (∀ e, f1 a = Except.error e →
      (giacrs_gen_nthprime_g f1 a res).1 = some e) ∧
    (f1 a = Except.ok GiacGen.gUndef →
      (giacrs_gen_nthprime_g f1 a res).1 = some nthprimeOversizeMsg) ∧
    (∀ w, f1 a = Except.ok w → giac_is_undef w = false →
      (giacrs_gen_nthprime_g f1 a res).1 = none) ∧
    ((p s).firstErrorLine ≠ 0 →
      (giacrs_gen_from_str_g p ev s res).1 = some (p s).diagnostic) ∧
    marshals (f2 a b) (giacrs_gen_lcm_g f2 a b res) ∧
    marshals (f2 a b) (giacrs_gen_iquo_g f2 a b res) ∧
    marshals (fqr a b) (giacrs_gen_iquorem_g fqr a b q res) ∧
    marshals (fqr a b) (giacrs_gen_irem_g fqr a b res) ∧
    marshals (f1 a) (giacrs_gen_nextprime_g f1 a res) ∧
    marshals (f1 a) (giacrs_gen_prevprime_g f1 a res) ∧
    marshals (fb a) (giacrs_gen_is_zero_g fb a b0) ∧
    marshals (fi a) (giacrs_gen_to_int_g fi a i0) ∧
    marshals (fi a) (giacrs_gen_is_pseudoprime_g fi a i0) ∧
    marshals (fi2 a b) (giacrs_gen_legendre_g fi2 a b i0) ∧
    marshals (fi2 a b) (giacrs_gen_jacobi_g fi2 a b i0) ∧
    marshals (f3 a b) (giacrs_gen_iegcd_g f3 a b u v d) := by
  refine ⟨marshals_SAFE_CALL _ _, ?_, ?_, ?_, ?_, ?_, ?_,
    marshals_SAFE_CALL _ _, marshals_SAFE_CALL _ _, ?_, ?_,
    marshals_SAFE_CALL _ _, marshals_SAFE_CALL _ _, marshals_SAFE_CALL _ _,
    marshals_SAFE_CALL _ _, ?_, ?_, ?_, marshals_SAFE_CALL _ _⟩
  · intro h0
    have hrw : giacrs_gen_from_str_g p ev s res
        = SAFE_CALL (ev (p s).parsed) (p s).parsed := by
      simp [giacrs_gen_from_str_g, h0]
    rw [hrw]
    exact marshals_SAFE_CALL _ _
  · constructor
    · intro e he
      simp [giacrs_gen_binop_h, he]
    · intro w hw
      simp [giacrs_gen_binop_h, hw]
  · intro e he
    simp [giacrs_gen_nthprime_g, he]
  · intro hu
    simp [giacrs_gen_nthprime_g, hu, giac_is_undef]
  · intro w hw hnu
    simp [giacrs_gen_nthprime_g, hw, hnu]
  · intro hbad
    simp [giacrs_gen_from_str_g, hbad]
  · constructor
    · intro e he
      simp [giacrs_gen_iquorem_g, he]
    · intro w hw
      cases w
      simp [giacrs_gen_iquorem_g, hw]
  · constructor
    · intro e he
      simp [giacrs_gen_irem_g, giacrs_gen_iquorem_g, he]
    · intro w hw
      cases w
      simp [giacrs_gen_irem_g, giacrs_gen_iquorem_g, hw]
  · constructor
    · intro e he
      simp [giacrs_gen_is_pseudoprime_g, he]
    · intro w hw
      simp [giacrs_gen_is_pseudoprime_g, hw]
  · constructor
    · intro e he
      simp [giacrs_gen_legendre_g, he]
    · intro w hw
      simp [giacrs_gen_legendre_g, hw]
  · constructor
    · intro e he
      simp [giacrs_gen_jacobi_g, he]
    · intro w hw
      simp [giacrs_gen_jacobi_g, hw]

theorem C1_no_exception_escapes_witness :
    (giacrs_gen_gcd_g (fun _ _ => Except.error "E2") (GiacGen.gInt 1)
        (GiacGen.gInt 2) GiacGen.gUndef).1 = some "E2" ∧
    (giacrs_gen_from_str_g parseOkStub evalRaisesStub "x" GiacGen.gUndef).1
        = some "eval threw" ∧
    (giacrs_gen_binop_h (fun _ _ => Except.error "E2") aliasHeap 0 0).1
        = some "E2" ∧
    (giacrs_gen_nthprime_g (fun _ => Except.error "E1") (GiacGen.gInt 1)
        GiacGen.gUndef).1 = some "E1" := by
  have h := C1_no_exception_escapes
    (fun _ => Except.error "E1") (fun _ _ => Except.error "E2")
    (fun _ _ => Except.error "E3") (fun _ => Except.error "E4")
    (fun _ _ => Except.error "E5") (fun _ => Except.error "E6")
    (fun _ _ => Except.error "E7") parseOkStub evalRaisesStub
    (GiacGen.gInt 1) (GiacGen.gInt 2) GiacGen.gUndef GiacGen.gUndef
    GiacGen.gUndef GiacGen.gUndef GiacGen.gUndef 0 false "x" aliasHeap 0 0
  exact ⟨h.1.1 "E2" rfl, (h.2.1 rfl).1 "eval threw" rfl,
    (h.2.2.1).1 "E2" rfl, h.2.2.2.1 "E1" rfl⟩
